import Mathlib

/-!
Verification of `DataSetInteraction.cpp` (DataSetByFeature): construction of
the residual-error array and the per-feature column storage, with explicit
allocation accounting so rollback-on-failure properties can be stated.

The heap is modelled as an allocator with an injectable failure oracle:
every allocation consumes one oracle entry (an empty oracle means every
allocation succeeds) and returns a fresh identifier; `live` tracks the
identifiers (with their element counts) currently allocated, `freeLog`
records every `free` call, `attempts` counts allocation attempts.  The
external residual kernels (`InitializeResiduals<...>::Func`) only write
through the buffer they are handed, so they are modelled as events on a
dispatch log recording which kernel was invoked and with which buffer.
-/

/-- Allocator state: failure oracle, fresh-id counter, live allocations
(identifier paired with element count), log of `free` calls, and the number
of allocation attempts made so far. -/
structure Heap where
  oracle : List Bool
  next : Nat
  live : List (Nat × Nat)
  freeLog : List Nat
  attempts : Nat
  deriving Repr, DecidableEq

/-- `EbmMalloc`: one allocation attempt of `size` elements.  The head of the
oracle decides success; an exhausted oracle means success.  On success a
fresh identifier is returned and recorded live. -/
def Heap.alloc (h : Heap) (size : Nat) : Option Nat × Heap :=
  match h.oracle with
  | [] =>
      (some h.next,
        { h with next := h.next + 1, live := (h.next, size) :: h.live,
                 attempts := h.attempts + 1 })
  | ok :: rest =>
      if ok then
        (some h.next,
          { oracle := rest, next := h.next + 1, live := (h.next, size) :: h.live,
            freeLog := h.freeLog, attempts := h.attempts + 1 })
      else
        (none, { h with oracle := rest, attempts := h.attempts + 1 })

/-- `free(p)` for a non-null pointer: removes the identifier from the live
set and records the call. -/
def Heap.free (h : Heap) (id : Nat) : Heap :=
  { h with live := h.live.filter (fun e => e.1 != id), freeLog := h.freeLog ++ [id] }

/-- `free(p)` where `p` may be null: `free(nullptr)` is a no-op. -/
def Heap.freePtr (h : Heap) : Option Nat → Heap
  | none => h
  | some id => h.free id

/-- Well-formedness: every live identifier was issued by the counter. -/
def Heap.WF (h : Heap) : Prop := ∀ e ∈ h.live, e.1 < h.next

/-- Modelled from the spec: the learning-task descriptor
(`runtimeLearningTypeOrCountTargetClasses`, declared in headers absent from
the sources) distinguishes regression, binary classification and multiclass
classification with a class count. -/
inductive EbmTask where
  | regression
  | binary
  | multiclass (k : Nat)
  deriving Repr, DecidableEq

/-- Modelled from the spec: `GetVectorLength` is 1 for regression and binary
classification and the class count for multiclass. -/
def GetVectorLength : EbmTask → Nat
  | .regression => 1
  | .binary => 1
  | .multiclass k => k

/-- Width of the platform size type (`size_t`), modelled as 64 bits. -/
def sizeTypeBits : Nat := 64

/-- Modelled from the spec: the overflow-check collaborator
`IsMultiplyError a b` holds exactly when `a * b` overflows the size type. -/
def IsMultiplyError (a b : Nat) : Bool := decide (2 ^ sizeTypeBits ≤ a * b)

/-- The three residual kernels the source can dispatch:
`InitializeResiduals<2>` (fixed binary), `InitializeResiduals
<k_DynamicClassification>` (multiclass) and `InitializeResiduals
<k_Regression>`. -/
inductive KernelKind where
  | fixedBinary
  | dynamicMulticlass
  | regression
  deriving Repr, DecidableEq

/-- One dispatch of an external residual kernel: which kernel, the instance
count, the output buffer handed to it (`none` models a null pointer) and the
scratch buffer handed to it. -/
structure KernelCall where
  kind : KernelKind
  cInstances : Nat
  buffer : Option Nat
  scratch : Option Nat
  deriving Repr, DecidableEq

/-- Which kernel the source dispatches for each task shape. -/
def kindOfTask : EbmTask → KernelKind
  | .regression => .regression
  | .binary => .fixedBinary
  | .multiclass _ => .dynamicMulticlass

/-- `ConstructResidualErrors` (lines 17-74): checks
`IsMultiplyError(cInstances, cVectorLength)`, allocates the output array of
`cInstances * cVectorLength` elements, dispatches the task-matching kernel
(allocating and then freeing a scratch vector of `cVectorLength` elements in
the multiclass path), and returns the output pointer.  Note the source
performs no null check on `aResidualErrors` before dispatching.  Target and
predictor-score buffers are only forwarded to the external kernel and are
not modelled. -/
def ConstructResidualErrors (cInstances : Nat) (task : EbmTask) (h : Heap)
    (log : List KernelCall) : Option Nat × Heap × List KernelCall :=
  if IsMultiplyError cInstances (GetVectorLength task) then
    (none, h, log)
  else
    match h.alloc (cInstances * GetVectorLength task), task with
    | (aResidualErrors, h1), .binary =>
        (aResidualErrors, h1,
          log ++ [⟨.fixedBinary, cInstances, aResidualErrors, none⟩])
    | (aResidualErrors, h1), .multiclass _ =>
        match h1.alloc (GetVectorLength task) with
        | (none, h2) => (none, h2.freePtr aResidualErrors, log)
        | (some aTempFloatVector, h2) =>
            (aResidualErrors, h2.free aTempFloatVector,
              log ++ [⟨.dynamicMulticlass, cInstances, aResidualErrors,
                        some aTempFloatVector⟩])
    | (aResidualErrors, h1), .regression =>
        (aResidualErrors, h1,
          log ++ [⟨.regression, cInstances, aResidualErrors, none⟩])

/-- Modelled from the spec: one feature-metadata entry, exposing
`GetIndexFeatureData` (offset multiplier into the binned buffer) and
`GetCountBins` (exclusive bound on legal codes); `Feature.h` is absent from
the sources. -/
structure Feature where
  indexFeatureData : Nat
  countBins : Nat
  deriving Repr, DecidableEq

/-- Modelled from the spec: `static_cast<StorageDataType>(data)` narrows a
raw signed code to the `W`-bit unsigned storage width (value modulo `2^W`);
the width of `StorageDataType` is declared in headers absent from the
sources, so it is kept as a parameter. -/
def narrowStorage (W : Nat) (x : Int) : Nat := (x % ((2 : Int) ^ W)).toNat

/-- The contents of one feature's column: the inner do-while of
`ConstructInputData` (lines 108-119) copies, for `j < cInstances`, the raw
code at `aBinnedData[feature.GetIndexFeatureData() * cInstances + j]`,
narrowed to the storage width. -/
def columnContents (W : Nat) (f : Feature) (cInstances : Nat)
    (aBinnedData : Nat → Int) : List Nat :=
  (List.range cInstances).map fun j =>
    narrowStorage W (aBinnedData (f.indexFeatureData * cInstances + j))

/-- The outer do-while of `ConstructInputData` (lines 99-122): for each
feature, allocate one array of `cInstances` storage cells and fill it; on an
allocation failure, free every per-feature array allocated so far (the
`free_all` unwind, most recent first) and fail. -/
def buildColumns (W : Nat) (cInstances : Nat) (aBinnedData : Nat → Int) :
    List Feature → Heap → Option (List (Nat × List Nat)) × Heap
  | [], h => (some [], h)
  | f :: rest, h =>
      match h.alloc cInstances with
      | (none, h1) => (none, h1)
      | (some pInputDataTo, h1) =>
          match buildColumns W cInstances aBinnedData rest h1 with
          | (none, h2) => (none, h2.free pInputDataTo)
          | (some cols, h2) =>
              (some ((pInputDataTo, columnContents W f cInstances aBinnedData) :: cols), h2)

/-- `ConstructInputData` (lines 76-134): allocates the outer array of
`cFeatures` pointer slots, then builds every per-feature column; on any
failure it frees the per-feature arrays built so far and the outer array and
returns null.  On success it returns the outer identifier together with the
per-feature (identifier, contents) pairs. -/
def ConstructInputData (W : Nat) (aFeatures : List Feature) (cInstances : Nat)
    (aBinnedData : Nat → Int) (h : Heap) :
    Option (Nat × List (Nat × List Nat)) × Heap :=
  match h.alloc aFeatures.length with
  | (none, h1) => (none, h1)
  | (some aaInputDataTo, h1) =>
      match buildColumns W cInstances aBinnedData aFeatures h1 with
      | (none, h2) => (none, h2.free aaInputDataTo)
      | (some cols, h2) => (some (aaInputDataTo, cols), h2)

/-- The fields of `DataSetByFeature` used by `Initialize` and `Destruct`:
the residual-array pointer, the column-storage pointer (outer identifier
with the per-feature arrays it points at), and the instance and feature
counts. -/
structure DataSetByFeature where
  m_aResidualErrors : Option Nat
  m_aaInputData : Option (Nat × List (Nat × List Nat))
  m_cInstances : Nat
  m_cFeatures : Nat
  deriving Repr, DecidableEq

/-- `DataSetByFeature::Destruct` (lines 136-153): `free(m_aResidualErrors)`
(a no-op on null), then, if `m_aaInputData` is non-null, free each of the
`m_cFeatures` per-feature arrays in order and finally the outer array. -/
def DataSetByFeature.Destruct (ds : DataSetByFeature) (h : Heap) : Heap :=
  let h1 := h.freePtr ds.m_aResidualErrors
  match ds.m_aaInputData with
  | none => h1
  | some (outer, cols) =>
      ((cols.take ds.m_cFeatures).foldl (fun hh c => hh.free c.1) h1).free outer

/-- `DataSetByFeature::Initialize` (lines 155-196): when `cInstances` is
nonzero, build the residual array (failure exits with `true`), then, when
`cFeatures` is nonzero, build the column storage (failure frees the residual
array and exits with `true`); only then commit the fields.  `m_cFeatures` is
recorded on every success path, including the empty-dataset fast path.
Returns `false` on success and `true` on failure. -/
def DataSetByFeature.Initialize (ds : DataSetByFeature) (W : Nat)
    (aFeatures : List Feature) (cInstances : Nat) (aBinnedData : Nat → Int)
    (task : EbmTask) (h : Heap) (log : List KernelCall) :
    Bool × DataSetByFeature × Heap × List KernelCall :=
  if cInstances ≠ 0 then
    match ConstructResidualErrors cInstances task h log with
    | (none, h1, log1) => (true, ds, h1, log1)
    | (some aResidualErrors, h1, log1) =>
        if aFeatures.length ≠ 0 then
          match ConstructInputData W aFeatures cInstances aBinnedData h1 with
          | (none, h2) => (true, ds, h2.free aResidualErrors, log1)
          | (some aaInputData, h2) =>
              (false,
                { m_aResidualErrors := some aResidualErrors,
                  m_aaInputData := some aaInputData,
                  m_cInstances := cInstances,
                  m_cFeatures := aFeatures.length }, h2, log1)
        else
          (false,
            { ds with m_aResidualErrors := some aResidualErrors,
                      m_cInstances := cInstances,
                      m_cFeatures := aFeatures.length }, h1, log1)
  else
    (false, { ds with m_cFeatures := aFeatures.length }, h, log)

theorem Heap.free_live (h : Heap) (id : Nat) :
    (h.free id).live = h.live.filter (fun e => e.1 != id) := rfl

theorem Heap.free_next (h : Heap) (id : Nat) : (h.free id).next = h.next := rfl

theorem Heap.free_freeLog (h : Heap) (id : Nat) :
    (h.free id).freeLog = h.freeLog ++ [id] := rfl

theorem Heap.free_attempts (h : Heap) (id : Nat) :
    (h.free id).attempts = h.attempts := rfl

theorem Heap.alloc_some {h : Heap} {size id : Nat} {h' : Heap}
    (e : h.alloc size = (some id, h')) :
    id = h.next ∧ h'.next = h.next + 1 ∧ h'.live = (h.next, size) :: h.live ∧
      h'.freeLog = h.freeLog ∧ h'.attempts = h.attempts + 1 := by
  cases ho : h.oracle with
  | nil =>
      simp only [Heap.alloc, ho, Prod.mk.injEq, Option.some.injEq] at e
      obtain ⟨e1, e2⟩ := e
      subst e1; subst e2
      simp
  | cons b rest =>
      cases b with
      | true =>
          simp only [Heap.alloc, ho, if_true, Prod.mk.injEq, Option.some.injEq] at e
          obtain ⟨e1, e2⟩ := e
          subst e1; subst e2
          simp
      | false =>
          simp [Heap.alloc, ho] at e

theorem Heap.alloc_none {h : Heap} {size : Nat} {h' : Heap}
    (e : h.alloc size = (none, h')) :
    h'.next = h.next ∧ h'.live = h.live ∧ h'.freeLog = h.freeLog ∧
      h'.attempts = h.attempts + 1 := by
  cases ho : h.oracle with
  | nil =>
      simp only [Heap.alloc, ho, Prod.mk.injEq] at e
      exact absurd e.1 (by simp)
  | cons b rest =>
      cases b with
      | true =>
          simp only [Heap.alloc, ho, if_true, Prod.mk.injEq] at e
          exact absurd e.1 (by simp)
      | false =>
          simp only [Heap.alloc, ho] at e
          rw [if_neg (by simp)] at e
          injection e with e1 e2
          subst e2
          simp

theorem Heap.alloc_WF {h : Heap} {size : Nat} {p : Option Nat} {h' : Heap}
    (e : h.alloc size = (p, h')) (hwf : h.WF) : h'.WF := by
  cases p with
  | none =>
      obtain ⟨hn, hl, -, -⟩ := Heap.alloc_none e
      intro x hx
      rw [hl] at hx
      rw [hn]
      exact hwf x hx
  | some id =>
      obtain ⟨hid, hn, hl, -, -⟩ := Heap.alloc_some e
      intro x hx
      rw [hl] at hx
      rw [hn]
      rcases List.mem_cons.mp hx with hx | hx
      · rw [hx]
        exact Nat.lt_succ_self _
      · exact Nat.lt_succ_of_lt (hwf x hx)

theorem Heap.free_WF {h : Heap} {id : Nat} (hwf : h.WF) : (h.free id).WF := by
  intro x hx
  rw [Heap.free_live] at hx
  rw [Heap.free_next]
  exact hwf x (List.mem_of_mem_filter hx)

theorem filter_live_eq {l : List (Nat × Nat)} {id : Nat}
    (hf : ∀ e ∈ l, e.1 ≠ id) : l.filter (fun e => e.1 != id) = l := by
  induction l with
  | nil => rfl
  | cons a t ih =>
      have ha : (a.1 != id) = true := by
        simpa [bne_iff_ne] using hf a (List.mem_cons_self a t)
      rw [List.filter_cons, if_pos ha]
      rw [ih fun e he => hf e (List.mem_cons_of_mem a he)]

theorem Heap.free_head {h : Heap} {id size : Nat} {rest : List (Nat × Nat)}
    (hl : h.live = (id, size) :: rest) (hfresh : ∀ e ∈ rest, e.1 ≠ id) :
    (h.free id).live = rest := by
  rw [Heap.free_live, hl, List.filter_cons]
  have hid : ((id, size).1 != id) = false := by simp
  rw [if_neg (by simp [hid])]
  exact filter_live_eq hfresh

theorem Heap.not_mem_next {h : Heap} (hwf : h.WF) : ∀ e ∈ h.live, e.1 ≠ h.next :=
  fun e he => Nat.ne_of_lt (hwf e he)

theorem constructResidualErrors_spec {cI : Nat} {task : EbmTask} {h : Heap}
    {log : List KernelCall} {p : Option Nat} {h' : Heap} {log' : List KernelCall}
    (hwf : h.WF)
    (e : ConstructResidualErrors cI task h log = (p, h', log')) :
    h'.WF ∧
    (IsMultiplyError cI (GetVectorLength task) = false → h.attempts < h'.attempts) ∧
    (p = none → h'.live = h.live) ∧
    (∀ id, p = some id →
       id = h.next ∧ h'.live = (id, cI * GetVectorLength task) :: h.live ∧
       ∃ c, log' = log ++ [c] ∧ c.buffer = some id ∧ c.cInstances = cI ∧
         c.kind = kindOfTask task) := by
  by_cases hm : IsMultiplyError cI (GetVectorLength task) = true
  case pos =>
    rw [ConstructResidualErrors.eq_def, if_pos hm] at e
    injection e with e1 e2
    injection e2 with e2 e3
    subst e1; subst e2; subst e3
    refine ⟨hwf, ?_, fun _ => rfl, ?_⟩
    · intro hf; rw [hm] at hf; cases hf
    · intro id hid; cases hid
  case neg =>
    rw [ConstructResidualErrors.eq_def, if_neg hm] at e
    rcases ha : h.alloc (cI * GetVectorLength task) with ⟨a, h1⟩
    rw [ha] at e
    cases task with
    | binary =>
        dsimp only at e
        injection e with e1 e2
        injection e2 with e2 e3
        subst e1; subst e2; subst e3
        cases a with
        | none =>
            obtain ⟨hn, hl, -, hat⟩ := Heap.alloc_none ha
            refine ⟨Heap.alloc_WF ha hwf, ?_, fun _ => hl, ?_⟩
            · intro _; rw [hat]; exact Nat.lt_succ_self _
            · intro id hid; cases hid
        | some id =>
            obtain ⟨hid, hn, hl, -, hat⟩ := Heap.alloc_some ha
            refine ⟨Heap.alloc_WF ha hwf, ?_, ?_, ?_⟩
            · intro _; rw [hat]; exact Nat.lt_succ_self _
            · intro hc; cases hc
            · intro id2 hid2
              injection hid2 with hid2
              subst hid2
              subst hid
              exact ⟨rfl, hl, ⟨_, rfl, rfl, rfl, rfl⟩⟩
    | regression =>
        dsimp only at e
        injection e with e1 e2
        injection e2 with e2 e3
        subst e1; subst e2; subst e3
        cases a with
        | none =>
            obtain ⟨hn, hl, -, hat⟩ := Heap.alloc_none ha
            refine ⟨Heap.alloc_WF ha hwf, ?_, fun _ => hl, ?_⟩
            · intro _; rw [hat]; exact Nat.lt_succ_self _
            · intro id hid; cases hid
        | some id =>
            obtain ⟨hid, hn, hl, -, hat⟩ := Heap.alloc_some ha
            refine ⟨Heap.alloc_WF ha hwf, ?_, ?_, ?_⟩
            · intro _; rw [hat]; exact Nat.lt_succ_self _
            · intro hc; cases hc
            · intro id2 hid2
              injection hid2 with hid2
              subst hid2
              subst hid
              exact ⟨rfl, hl, ⟨_, rfl, rfl, rfl, rfl⟩⟩
    | multiclass k =>
        dsimp only at e
        rcases hb : h1.alloc (GetVectorLength (EbmTask.multiclass k)) with ⟨b, h2⟩
        rw [hb] at e
        have hwf1 : h1.WF := Heap.alloc_WF ha hwf
        have hwf2 : h2.WF := Heap.alloc_WF hb hwf1
        cases b with
        | none =>
            dsimp only at e
            injection e with e1 e2
            injection e2 with e2 e3
            subst e1; subst e2; subst e3
            obtain ⟨hn2, hl2, -, hat2⟩ := Heap.alloc_none hb
            cases a with
            | none =>
                obtain ⟨hn1, hl1, -, hat1⟩ := Heap.alloc_none ha
                simp only [Heap.freePtr]
                refine ⟨hwf2, ?_, ?_, ?_⟩
                · intro _; rw [hat2, hat1]
                  exact Nat.lt_of_lt_of_le (Nat.lt_succ_self _) (Nat.le_succ _)
                · intro _; rw [hl2, hl1]
                · intro id hid; cases hid
            | some id =>
                obtain ⟨hid, hn1, hl1, -, hat1⟩ := Heap.alloc_some ha
                simp only [Heap.freePtr]
                refine ⟨Heap.free_WF hwf2, ?_, ?_, ?_⟩
                · intro _; rw [Heap.free_attempts, hat2, hat1]
                  exact Nat.lt_of_lt_of_le (Nat.lt_succ_self _) (Nat.le_succ _)
                · intro _
                  subst hid
                  refine Heap.free_head (by rw [hl2, hl1]) ?_
                  exact Heap.not_mem_next hwf
                · intro id2 hid2; cases hid2
        | some t =>
            dsimp only at e
            injection e with e1 e2
            injection e2 with e2 e3
            subst e1; subst e2; subst e3
            obtain ⟨hti, hn2, hl2, -, hat2⟩ := Heap.alloc_some hb
            cases a with
            | none =>
                obtain ⟨hn1, hl1, -, hat1⟩ := Heap.alloc_none ha
                refine ⟨Heap.free_WF hwf2, ?_, ?_, ?_⟩
                · intro _; rw [Heap.free_attempts, hat2, hat1]
                  exact Nat.lt_of_lt_of_le (Nat.lt_succ_self _) (Nat.le_succ _)
                · intro _
                  subst hti
                  have : (h2.free h1.next).live = h1.live :=
                    Heap.free_head hl2 (Heap.not_mem_next hwf1)
                  rw [this, hl1]
                · intro id hid; cases hid
            | some id =>
                obtain ⟨hid, hn1, hl1, -, hat1⟩ := Heap.alloc_some ha
                refine ⟨Heap.free_WF hwf2, ?_, ?_, ?_⟩
                · intro _; rw [Heap.free_attempts, hat2, hat1]
                  exact Nat.lt_of_lt_of_le (Nat.lt_succ_self _) (Nat.le_succ _)
                · intro hc; cases hc
                · intro id2 hid2
                  injection hid2 with hid2
                  subst hid2
                  subst hid
                  subst hti
                  refine ⟨rfl, ?_, ⟨_, rfl, rfl, rfl, rfl⟩⟩
                  have hfresh : ∀ x ∈ (h.next, cI * GetVectorLength (EbmTask.multiclass k)) :: h.live,
                      x.1 ≠ h1.next := by
                    intro x hx
                    rcases List.mem_cons.mp hx with hx | hx
                    · rw [hx, hn1]; exact Nat.ne_of_lt (Nat.lt_succ_self _)
                    · rw [hn1]; exact Nat.ne_of_lt (Nat.lt_succ_of_lt (hwf x hx))
                  have : (h2.free h1.next).live =
                      (h.next, cI * GetVectorLength (EbmTask.multiclass k)) :: h.live :=
                    Heap.free_head (by rw [hl2, hl1]) hfresh
                  rw [this]

theorem buildColumns_spec (W cI : Nat) (bd : Nat → Int) :
    ∀ (fs : List Feature) (h : Heap), h.WF →
      (buildColumns W cI bd fs h).2.WF ∧
      ((buildColumns W cI bd fs h).1 = none →
          (buildColumns W cI bd fs h).2.live = h.live) ∧
      (∀ cols, (buildColumns W cI bd fs h).1 = some cols →
          (buildColumns W cI bd fs h).2.live =
            (cols.map (fun c => (c.1, cI))).reverse ++ h.live ∧
          cols.map Prod.snd = fs.map (fun f => columnContents W f cI bd)) := by
  intro fs
  induction fs with
  | nil =>
      intro h hwf
      refine ⟨hwf, ?_, ?_⟩
      · intro hc; cases hc
      · intro cols hc
        rw [buildColumns] at hc ⊢
        injection hc with hc
        subst hc
        exact ⟨rfl, rfl⟩
  | cons f rest ih =>
      intro h hwf
      rcases ha : h.alloc cI with ⟨a, h1⟩
      rw [buildColumns.eq_def]
      dsimp only
      rw [ha]
      cases a with
      | none =>
          dsimp only
          obtain ⟨hn1, hl1, -, -⟩ := Heap.alloc_none ha
          exact ⟨Heap.alloc_WF ha hwf, fun _ => hl1, fun cols hc => by cases hc⟩
      | some id =>
          dsimp only
          obtain ⟨hid, hn1, hl1, -, -⟩ := Heap.alloc_some ha
          have hwf1 : h1.WF := Heap.alloc_WF ha hwf
          obtain ⟨ihWF, ihNone, ihSome⟩ := ih h1 hwf1
          rcases hr : buildColumns W cI bd rest h1 with ⟨q, h2⟩
          rw [hr] at ihWF ihNone ihSome
          dsimp only at ihWF ihNone ihSome
          cases q with
          | none =>
              dsimp only
              refine ⟨Heap.free_WF ihWF, ?_, ?_⟩
              · intro _
                subst hid
                refine Heap.free_head (by rw [ihNone rfl, hl1]) ?_
                exact Heap.not_mem_next hwf
              · intro cols hc; cases hc
          | some cols =>
              dsimp only
              obtain ⟨ihLive, ihMap⟩ := ihSome cols rfl
              refine ⟨ihWF, ?_, ?_⟩
              · intro hc; cases hc
              · intro cols2 hc
                injection hc with hc
                subst hc
                constructor
                · rw [ihLive, hl1, hid]
                  simp [List.append_assoc]
                · simp [ihMap]

theorem constructInputData_spec (W : Nat) (fs : List Feature) (cI : Nat)
    (bd : Nat → Int) (h : Heap) (hwf : h.WF) :
    (ConstructInputData W fs cI bd h).2.WF ∧
    ((ConstructInputData W fs cI bd h).1 = none →
        (ConstructInputData W fs cI bd h).2.live = h.live) ∧
    (∀ oid cols, (ConstructInputData W fs cI bd h).1 = some (oid, cols) →
        cols.map Prod.snd = fs.map (fun f => columnContents W f cI bd)) := by
  rcases hE : ConstructInputData W fs cI bd h with ⟨r, h'⟩
  dsimp only
  rw [ConstructInputData.eq_def] at hE
  rcases ha : h.alloc fs.length with ⟨a, h1⟩
  rw [ha] at hE
  cases a with
  | none =>
      dsimp only at hE
      injection hE with e1 e2
      subst e1; subst e2
      obtain ⟨hn1, hl1, -, -⟩ := Heap.alloc_none ha
      exact ⟨Heap.alloc_WF ha hwf, fun _ => hl1, fun oid cols hc => by cases hc⟩
  | some oid0 =>
      dsimp only at hE
      obtain ⟨hid, hn1, hl1, -, -⟩ := Heap.alloc_some ha
      have hwf1 : h1.WF := Heap.alloc_WF ha hwf
      obtain ⟨bWF, bNone, bSome⟩ := buildColumns_spec W cI bd fs h1 hwf1
      rcases hb : buildColumns W cI bd fs h1 with ⟨q, h2⟩
      rw [hb] at bWF bNone bSome hE
      dsimp only at bWF bNone bSome
      cases q with
      | none =>
          dsimp only at hE
          injection hE with e1 e2
          subst e1; subst e2
          refine ⟨Heap.free_WF bWF, ?_, ?_⟩
          · intro _
            subst hid
            exact Heap.free_head (by rw [bNone rfl, hl1]) (Heap.not_mem_next hwf)
          · intro oid cols hc; cases hc
      | some cols =>
          dsimp only at hE
          injection hE with e1 e2
          subst e1; subst e2
          obtain ⟨-, bMap⟩ := bSome cols rfl
          refine ⟨bWF, ?_, ?_⟩
          · intro hc; cases hc
          · intro oid2 cols2 hc
            injection hc with hc
            injection hc with hc1 hc2
            subst hc2
            exact bMap

theorem foldl_free_freeLog (l : List (Nat × List Nat)) :
    ∀ h : Heap, (l.foldl (fun hh c => hh.free c.1) h).freeLog =
      h.freeLog ++ l.map Prod.fst := by
  induction l with
  | nil => intro h; simp
  | cons a t ih =>
      intro h
      rw [List.foldl_cons, ih, Heap.free_freeLog]
      simp

/-- Claim C1 (code bug): when the allocation of the residual output array
fails, `ConstructResidualErrors` does return the failure indicator (null),
but only after dispatching the residual kernel on the unallocated (null)
output buffer: the source has no null check between `EbmMalloc` and the
kernel dispatch.  At `cInstances = 1`, regression task, with the single
allocation failing, the call returns `none` while the kernel log records a
dispatch whose output buffer is null. -/
theorem constructResidualErrors_null_alloc_dispatches_kernel :
    ConstructResidualErrors 1 EbmTask.regression ⟨[false], 0, [], [], 0⟩ [] =
      (none, ⟨[], 0, [], [], 1⟩, [⟨KernelKind.regression, 1, none, none⟩]) := by
  decide

/-- Claim C3: for `cInstances ≥ 1`, when `cInstances * vectorLength`
overflows the size type, `ConstructResidualErrors` (and hence `Initialize`)
fails via the capacity guard, touching the heap not at all (zero
allocations); when it does not overflow, the guard does not trigger: the
call reaches at least one allocation attempt. -/
theorem residual_capacity_guard (cI : Nat) (task : EbmTask) (h : Heap)
    (log : List KernelCall) (hcI : 1 ≤ cI) :
    (IsMultiplyError cI (GetVectorLength task) = true →
        ConstructResidualErrors cI task h log = (none, h, log) ∧
        ∀ (ds : DataSetByFeature) (W : Nat) (fs : List Feature) (bd : Nat → Int),
          ds.Initialize W fs cI bd task h log = (true, ds, h, log)) ∧
    (IsMultiplyError cI (GetVectorLength task) = false → h.WF →
        h.attempts < (ConstructResidualErrors cI task h log).2.1.attempts) := by
  constructor
  · intro hm
    have hcr : ConstructResidualErrors cI task h log = (none, h, log) := by
      rw [ConstructResidualErrors.eq_def, if_pos hm]
    refine ⟨hcr, ?_⟩
    intro ds W fs bd
    rw [DataSetByFeature.Initialize.eq_def,
        if_pos (by omega : cI ≠ 0), hcr]
  · intro hm hwf
    rcases hE : ConstructResidualErrors cI task h log with ⟨p, h', log'⟩
    obtain ⟨-, hat, -, -⟩ := constructResidualErrors_spec hwf hE
    exact hat hm

/-- Claim C5: for every injected allocation-failure point inside
`ConstructInputData` (the outer array or any per-feature array — all
failure schedules are covered by quantifying over the heap's oracle), the
builder restores the live allocation set exactly (every allocation it made
is freed) and fails; and a successful build never returns a partial outer
array: it has exactly one column per feature. -/
theorem constructInputData_rollback (W : Nat) (fs : List Feature) (cI : Nat)
    (bd : Nat → Int) (h : Heap) (hwf : h.WF) (hfs : 1 ≤ fs.length)
    (hcI : 1 ≤ cI) :
    ((ConstructInputData W fs cI bd h).1 = none →
        (ConstructInputData W fs cI bd h).2.live = h.live) ∧
    (∀ oid cols, (ConstructInputData W fs cI bd h).1 = some (oid, cols) →
        cols.length = fs.length) := by
  obtain ⟨-, hN, hS⟩ := constructInputData_spec W fs cI bd h hwf
  refine ⟨hN, ?_⟩
  intro oid cols hc
  have hmap := congrArg List.length (hS oid cols hc)
  simpa using hmap

/-- Claim C6: `Initialize` with `cInstances = 0` on a zero-state instance
always succeeds (returns `false`), performs no allocation (heap and kernel
log unchanged), leaves residuals and columns null and the instance count 0
while still recording `featureCount`, and a subsequent `Destruct` is a
no-op. -/
theorem initialize_empty_dataset (ds : DataSetByFeature) (W : Nat)
    (fs : List Feature) (bd : Nat → Int) (task : EbmTask) (h : Heap)
    (log : List KernelCall)
    (hz1 : ds.m_aResidualErrors = none) (hz2 : ds.m_aaInputData = none)
    (hz3 : ds.m_cInstances = 0) :
    ds.Initialize W fs 0 bd task h log =
      (false, ⟨none, none, 0, fs.length⟩, h, log) ∧
    DataSetByFeature.Destruct ⟨none, none, 0, fs.length⟩ h = h := by
  rcases ds with ⟨dr, di, dci, dcf⟩
  dsimp only at hz1 hz2 hz3
  subst hz1; subst hz2; subst hz3
  constructor
  · rw [DataSetByFeature.Initialize.eq_def, if_neg (by simp)]
  · rfl

/-- Claim C9: `Destruct` frees the residual array when non-null; when the
column storage is non-null it frees each of the `m_cFeatures` per-feature
arrays in order and then the outer array (under the invariant that the
outer array holds exactly `m_cFeatures` sub-arrays); on an all-zero
instance it frees nothing at all (no double-free). -/
theorem destruct_frees_everything (h : Heap) (r oid cF cIn : Nat)
    (cols : List (Nat × List Nat)) (hlen : cols.length = cF) :
    (DataSetByFeature.Destruct ⟨some r, some (oid, cols), cIn, cF⟩ h).freeLog =
      h.freeLog ++ [r] ++ cols.map Prod.fst ++ [oid] ∧
    DataSetByFeature.Destruct ⟨some r, none, cIn, cF⟩ h = h.free r ∧
    DataSetByFeature.Destruct ⟨none, none, 0, 0⟩ h = h := by
  refine ⟨?_, rfl, rfl⟩
  rw [DataSetByFeature.Destruct.eq_def]
  dsimp only [Heap.freePtr]
  rw [show cols.take cF = cols from by rw [← hlen]; exact List.take_length cols]
  rw [Heap.free_freeLog, foldl_free_freeLog, Heap.free_freeLog]

/-- Claim C10: `Initialize` encodes its status with inverted boolean
polarity: starting from a zero-state instance, it returns `false` exactly
on success — the empty-dataset fast path (`cInstances = 0`) or the path
that commits the residual array — and `true` exactly on failure, where the
object is left with its residual pointer still null. -/
theorem initialize_inverted_polarity (ds : DataSetByFeature) (W : Nat)
    (fs : List Feature) (cI : Nat) (bd : Nat → Int) (task : EbmTask)
    (h : Heap) (log : List KernelCall)
    (hz : ds.m_aResidualErrors = none) :
    ((ds.Initialize W fs cI bd task h log).1 = false ↔
      (cI = 0 ∨
        (ds.Initialize W fs cI bd task h log).2.1.m_aResidualErrors ≠ none)) := by
  by_cases hc : cI = 0
  · rw [DataSetByFeature.Initialize.eq_def, if_neg (by simp [hc])]
    simp [hc]
  · rw [DataSetByFeature.Initialize.eq_def, if_pos hc]
    rcases hr : ConstructResidualErrors cI task h log with ⟨p, h1, log1⟩
    cases p with
    | none =>
        dsimp only
        simp [hc, hz]
    | some rid =>
        dsimp only
        by_cases hf : fs.length ≠ 0
        · rw [if_pos hf]
          rcases hcid : ConstructInputData W fs cI bd h1 with ⟨q, h2⟩
          cases q with
          | none =>
              dsimp only
              simp [hc, hz]
          | some cols =>
              dsimp only
              simp [hc]
        · rw [if_neg hf]
          simp [hc]

/-- Claim C2: whenever the residual build succeeds but the column build
fails (with `featureCount > 0`), `Initialize` frees the just-built residual
array and returns failure; the dataset object is returned unchanged in its
zero state (residuals null, columns null, instance count 0, feature count
untouched), every allocation made during the call has been freed (the live
set is restored exactly), and a subsequent `Destruct` on the object is a
no-op, so it is safe to destruct or re-initialize. -/
theorem initialize_rollback_on_column_failure (ds : DataSetByFeature)
    (W : Nat) (fs : List Feature) (cI : Nat) (bd : Nat → Int) (task : EbmTask)
    (h h1 h2 : Heap) (log log1 : List KernelCall) (rid : Nat)
    (hz1 : ds.m_aResidualErrors = none) (hz2 : ds.m_aaInputData = none)
    (hz3 : ds.m_cInstances = 0)
    (hwf : h.WF) (hcI : cI ≠ 0) (hfs : fs.length ≠ 0)
    (hres : ConstructResidualErrors cI task h log = (some rid, h1, log1))
    (hcol : ConstructInputData W fs cI bd h1 = (none, h2)) :
    ds.Initialize W fs cI bd task h log = (true, ds, h2.free rid, log1) ∧
    (h2.free rid).live = h.live ∧
    ds.Destruct (h2.free rid) = h2.free rid := by
  obtain ⟨h1WF, -, -, hsome⟩ := constructResidualErrors_spec hwf hres
  obtain ⟨hrid, h1live, -⟩ := hsome rid rfl
  obtain ⟨-, cidNone, -⟩ := constructInputData_spec W fs cI bd h1 h1WF
  rw [hcol] at cidNone
  dsimp only at cidNone
  have h2live : h2.live = h1.live := cidNone rfl
  refine ⟨?_, ?_, ?_⟩
  · rw [DataSetByFeature.Initialize.eq_def, if_pos hcI, hres]
    dsimp only
    rw [if_pos hfs, hcol]
  · subst hrid
    exact Heap.free_head (by rw [h2live, h1live]) (Heap.not_mem_next hwf)
  · rw [DataSetByFeature.Destruct.eq_def, hz1, hz2]
    rfl

/-- Claim C7: every successful residual build allocates an output array of
exactly `cInstances * vectorLength` elements (the sole new live allocation),
where the vector length is 1 for regression and binary classification and
`K` for multiclass with `K` classes, and dispatches exactly the
task-matching kernel — fixed 2-class for binary, dynamic for multiclass,
degenerate single-output for regression — on that buffer. -/
theorem residual_length_and_kernel_dispatch (cI : Nat) (task : EbmTask)
    (h h1 : Heap) (log log1 : List KernelCall) (rid : Nat) (hwf : h.WF)
    (hres : ConstructResidualErrors cI task h log = (some rid, h1, log1)) :
    h1.live = (rid, cI * GetVectorLength task) :: h.live ∧
    GetVectorLength EbmTask.regression = 1 ∧
    GetVectorLength EbmTask.binary = 1 ∧
    (∀ k, GetVectorLength (EbmTask.multiclass k) = k) ∧
    (∃ c, log1 = log ++ [c] ∧ c.buffer = some rid ∧ c.cInstances = cI ∧
      c.kind = kindOfTask task) := by
  obtain ⟨-, -, -, hsome⟩ := constructResidualErrors_spec hwf hres
  obtain ⟨-, hl, hc⟩ := hsome rid rfl
  exact ⟨hl, rfl, rfl, fun k => rfl, hc⟩

/-- Claim C8: in the multiclass path the scratch vector never survives the
call: on every failing path the live set is fully restored (in particular
the scratch is freed when it was allocated and the output array is released),
on every succeeding path the only surviving allocation is the output array;
and on the specific path where the output allocation succeeds but the
scratch allocation fails, the call frees the output array and fails. -/
theorem multiclass_scratch_freed (cI k : Nat) (h : Heap)
    (log : List KernelCall) (hwf : h.WF) :
    ((ConstructResidualErrors cI (EbmTask.multiclass k) h log).1 = none →
        (ConstructResidualErrors cI (EbmTask.multiclass k) h log).2.1.live =
          h.live) ∧
    (∀ rid, (ConstructResidualErrors cI (EbmTask.multiclass k) h log).1 =
          some rid →
        (ConstructResidualErrors cI (EbmTask.multiclass k) h log).2.1.live =
          (rid, cI * k) :: h.live) ∧
    (IsMultiplyError cI k = false →
      ∀ rid h1 h2, h.alloc (cI * k) = (some rid, h1) →
        h1.alloc k = (none, h2) →
        ConstructResidualErrors cI (EbmTask.multiclass k) h log =
          (none, h2.free rid, log) ∧
        (h2.free rid).live = h.live) := by
  rcases hE : ConstructResidualErrors cI (EbmTask.multiclass k) h log
    with ⟨p, h', log'⟩
  dsimp only
  obtain ⟨-, -, hnone, hsome⟩ := constructResidualErrors_spec hwf hE
  refine ⟨hnone, ?_, ?_⟩
  · intro rid hp
    have hx := (hsome rid hp).2.1
    simpa [GetVectorLength] using hx
  · intro hm rid h1 h2 ha hb
    rw [ConstructResidualErrors.eq_def,
        if_neg (by simp [GetVectorLength, hm])] at hE
    dsimp only [GetVectorLength] at hE
    rw [ha] at hE
    dsimp only at hE
    rw [hb] at hE
    dsimp only [Heap.freePtr] at hE
    refine ⟨hE.symm, ?_⟩
    obtain ⟨hid, -, hl1, -, -⟩ := Heap.alloc_some ha
    obtain ⟨-, hl2, -, -⟩ := Heap.alloc_none hb
    subst hid
    exact Heap.free_head (by rw [hl2, hl1]) (Heap.not_mem_next hwf)

/-- Claim C4: on every successful build, each column cell `columns[i][j]`
equals the raw code read at `binnedData[features[i].dataIndex * cInstances
+ j]` narrowed to the storage width, and every legal raw code `c` with
`0 ≤ c < binCount` (with `binCount` representable in the storage width)
round-trips: the stored narrow value, widened back, equals `c`. -/
theorem column_contents_and_narrowing (W cI : Nat) (fs : List Feature)
    (bd : Nat → Int) (h h2 : Heap) (oid : Nat) (cols : List (Nat × List Nat))
    (hwf : h.WF) (hfs : 1 ≤ fs.length) (hcI : 1 ≤ cI)
    (hsucc : ConstructInputData W fs cI bd h = (some (oid, cols), h2)) :
    cols.length = fs.length ∧
    (∀ i j, i < fs.length → j < cI →
        ((cols.getD i (0, [])).2).getD j 0 =
          narrowStorage W (bd ((fs.getD i ⟨0, 0⟩).indexFeatureData * cI + j))) ∧
    (∀ f ∈ fs, ∀ c : Int, 0 ≤ c → c < (f.countBins : Int) →
        f.countBins ≤ 2 ^ W → ((narrowStorage W c : Nat) : Int) = c) := by
  obtain ⟨-, -, hS⟩ := constructInputData_spec W fs cI bd h hwf
  rw [hsucc] at hS
  dsimp only at hS
  have hmap := hS oid cols rfl
  have hlen : cols.length = fs.length := by
    simpa using congrArg List.length hmap
  refine ⟨hlen, ?_, ?_⟩
  · intro i j hi hj
    have hi' : i < cols.length := by rw [hlen]; exact hi
    have e1 : (cols.getD i (0, ([] : List Nat))).2 =
        (cols.map Prod.snd).getD i [] := by
      rw [List.getD_eq_getElem _ _ hi',
          List.getD_eq_getElem _ _ (by simpa using hi'), List.getElem_map]
    have e2 : (cols.map Prod.snd).getD i [] =
        (fs.map (fun f => columnContents W f cI bd)).getD i [] := by
      rw [hmap]
    have e3 : (fs.map (fun f => columnContents W f cI bd)).getD i [] =
        columnContents W (fs.getD i ⟨0, 0⟩) cI bd := by
      rw [List.getD_eq_getElem _ _ (by simpa using hi), List.getElem_map,
          List.getD_eq_getElem _ _ hi]
    rw [e1, e2, e3, columnContents]
    have hj' : j < ((List.range cI).map (fun j =>
        narrowStorage W (bd ((fs.getD i ⟨0, 0⟩).indexFeatureData * cI + j)))).length := by
      simpa using hj
    rw [List.getD_eq_getElem _ _ hj', List.getElem_map, List.getElem_range]
  · intro f hf c hc0 hcb hbw
    have h2w : ((f.countBins : Nat) : Int) ≤ (2 : Int) ^ W := by
      exact_mod_cast hbw
    have hcw : c < (2 : Int) ^ W := lt_of_lt_of_le hcb h2w
    rw [narrowStorage, Int.emod_eq_of_lt hc0 hcw]
    exact Int.toNat_of_nonneg hc0

theorem initialize_rollback_on_column_failure_witness :
    DataSetByFeature.Initialize ⟨none, none, 0, 0⟩ 8 [⟨0, 4⟩] 1 (fun _ => 0)
        EbmTask.regression ⟨[true, false], 0, [], [], 0⟩ [] =
      (true, ⟨none, none, 0, 0⟩, Heap.free ⟨[], 1, [(0, 1)], [], 2⟩ 0,
        [⟨KernelKind.regression, 1, some 0, none⟩]) ∧
    (Heap.free ⟨[], 1, [(0, 1)], [], 2⟩ 0).live = [] ∧
    DataSetByFeature.Destruct ⟨none, none, 0, 0⟩
        (Heap.free ⟨[], 1, [(0, 1)], [], 2⟩ 0) =
      Heap.free ⟨[], 1, [(0, 1)], [], 2⟩ 0 :=
  initialize_rollback_on_column_failure ⟨none, none, 0, 0⟩ 8 [⟨0, 4⟩] 1
    (fun _ => 0) EbmTask.regression ⟨[true, false], 0, [], [], 0⟩
    ⟨[false], 1, [(0, 1)], [], 1⟩ ⟨[], 1, [(0, 1)], [], 2⟩ []
    [⟨KernelKind.regression, 1, some 0, none⟩] 0 rfl rfl rfl
    (by unfold Heap.WF; decide) (by decide) (by decide) (by decide) (by decide)

theorem residual_capacity_guard_witness :
    (IsMultiplyError (2 ^ 32) (GetVectorLength (EbmTask.multiclass (2 ^ 32))) = true →
        ConstructResidualErrors (2 ^ 32) (EbmTask.multiclass (2 ^ 32))
            ⟨[], 0, [], [], 0⟩ [] =
          (none, ⟨[], 0, [], [], 0⟩, []) ∧
        ∀ (ds : DataSetByFeature) (W : Nat) (fs : List Feature) (bd : Nat → Int),
          ds.Initialize W fs (2 ^ 32) bd (EbmTask.multiclass (2 ^ 32))
              ⟨[], 0, [], [], 0⟩ [] =
            (true, ds, ⟨[], 0, [], [], 0⟩, [])) ∧
    (IsMultiplyError (2 ^ 32) (GetVectorLength (EbmTask.multiclass (2 ^ 32))) = false →
        (⟨[], 0, [], [], 0⟩ : Heap).WF →
        (⟨[], 0, [], [], 0⟩ : Heap).attempts <
          (ConstructResidualErrors (2 ^ 32) (EbmTask.multiclass (2 ^ 32))
            ⟨[], 0, [], [], 0⟩ []).2.1.attempts) :=
  residual_capacity_guard (2 ^ 32) (EbmTask.multiclass (2 ^ 32))
    ⟨[], 0, [], [], 0⟩ [] (by decide)

theorem constructInputData_rollback_witness :
    ((ConstructInputData 8 [⟨0, 4⟩] 1 (fun _ => 0)
          ⟨[true, false], 0, [], [], 0⟩).1 = none →
        (ConstructInputData 8 [⟨0, 4⟩] 1 (fun _ => 0)
          ⟨[true, false], 0, [], [], 0⟩).2.live =
          (⟨[true, false], 0, [], [], 0⟩ : Heap).live) ∧
    (∀ oid cols,
        (ConstructInputData 8 [⟨0, 4⟩] 1 (fun _ => 0)
            ⟨[true, false], 0, [], [], 0⟩).1 = some (oid, cols) →
        cols.length = ([⟨0, 4⟩] : List Feature).length) :=
  constructInputData_rollback 8 [⟨0, 4⟩] 1 (fun _ => 0)
    ⟨[true, false], 0, [], [], 0⟩ (by unfold Heap.WF; decide) (by decide)
    (by decide)

theorem initialize_empty_dataset_witness :
    DataSetByFeature.Initialize ⟨none, none, 0, 5⟩ 8 [⟨2, 3⟩] 0 (fun _ => 0)
        EbmTask.binary ⟨[], 0, [], [], 0⟩ [] =
      (false, ⟨none, none, 0, 1⟩, ⟨[], 0, [], [], 0⟩, []) ∧
    DataSetByFeature.Destruct ⟨none, none, 0, 1⟩ ⟨[], 0, [], [], 0⟩ =
      ⟨[], 0, [], [], 0⟩ :=
  initialize_empty_dataset ⟨none, none, 0, 5⟩ 8 [⟨2, 3⟩] (fun _ => 0)
    EbmTask.binary ⟨[], 0, [], [], 0⟩ [] rfl rfl rfl

theorem residual_length_and_kernel_dispatch_witness :
    (⟨[], 1, [(0, 2)], [], 1⟩ : Heap).live =
      (0, 2 * GetVectorLength EbmTask.regression) ::
        (⟨[], 0, [], [], 0⟩ : Heap).live ∧
    GetVectorLength EbmTask.regression = 1 ∧
    GetVectorLength EbmTask.binary = 1 ∧
    (∀ k, GetVectorLength (EbmTask.multiclass k) = k) ∧
    (∃ c : KernelCall, [⟨KernelKind.regression, 2, some 0, none⟩] = [] ++ [c] ∧
      c.buffer = some 0 ∧ c.cInstances = 2 ∧
      c.kind = kindOfTask EbmTask.regression) :=
  residual_length_and_kernel_dispatch 2 EbmTask.regression ⟨[], 0, [], [], 0⟩
    ⟨[], 1, [(0, 2)], [], 1⟩ [] [⟨KernelKind.regression, 2, some 0, none⟩] 0
    (by unfold Heap.WF; decide) (by decide)

theorem multiclass_scratch_freed_witness :
    ((ConstructResidualErrors 1 (EbmTask.multiclass 3)
          ⟨[], 0, [], [], 0⟩ []).1 = none →
        (ConstructResidualErrors 1 (EbmTask.multiclass 3)
          ⟨[], 0, [], [], 0⟩ []).2.1.live = (⟨[], 0, [], [], 0⟩ : Heap).live) ∧
    (∀ rid, (ConstructResidualErrors 1 (EbmTask.multiclass 3)
          ⟨[], 0, [], [], 0⟩ []).1 = some rid →
        (ConstructResidualErrors 1 (EbmTask.multiclass 3)
          ⟨[], 0, [], [], 0⟩ []).2.1.live =
          (rid, 1 * 3) :: (⟨[], 0, [], [], 0⟩ : Heap).live) ∧
    (IsMultiplyError 1 3 = false →
      ∀ rid h1 h2, Heap.alloc ⟨[], 0, [], [], 0⟩ (1 * 3) = (some rid, h1) →
        h1.alloc 3 = (none, h2) →
        ConstructResidualErrors 1 (EbmTask.multiclass 3)
            ⟨[], 0, [], [], 0⟩ [] =
          (none, h2.free rid, []) ∧
        (h2.free rid).live = (⟨[], 0, [], [], 0⟩ : Heap).live) :=
  multiclass_scratch_freed 1 3 ⟨[], 0, [], [], 0⟩ [] (by unfold Heap.WF; decide)

theorem destruct_frees_everything_witness :
    (DataSetByFeature.Destruct ⟨some 5, some (7, [(1, [0])]), 2, 1⟩
        ⟨[], 9, [], [], 0⟩).freeLog = [5, 1, 7] ∧
    DataSetByFeature.Destruct ⟨some 5, none, 2, 1⟩ ⟨[], 9, [], [], 0⟩ =
      Heap.free ⟨[], 9, [], [], 0⟩ 5 ∧
    DataSetByFeature.Destruct ⟨none, none, 0, 0⟩ ⟨[], 9, [], [], 0⟩ =
      ⟨[], 9, [], [], 0⟩ :=
  destruct_frees_everything ⟨[], 9, [], [], 0⟩ 5 7 1 2 [(1, [0])] (by decide)

theorem initialize_inverted_polarity_witness :
    ((DataSetByFeature.Initialize ⟨none, none, 0, 0⟩ 8 [] 1 (fun _ => 0)
        EbmTask.regression ⟨[], 0, [], [], 0⟩ []).1 = false ↔
      (1 = 0 ∨
        (DataSetByFeature.Initialize ⟨none, none, 0, 0⟩ 8 [] 1 (fun _ => 0)
          EbmTask.regression ⟨[], 0, [], [], 0⟩ []).2.1.m_aResidualErrors ≠
          none)) :=
  initialize_inverted_polarity ⟨none, none, 0, 0⟩ 8 [] 1 (fun _ => 0)
    EbmTask.regression ⟨[], 0, [], [], 0⟩ [] rfl

theorem column_contents_and_narrowing_witness :
    ([(1, [0, 3, 1])] : List (Nat × List Nat)).length =
      ([⟨0, 4⟩] : List Feature).length ∧
    (∀ i j, i < ([⟨0, 4⟩] : List Feature).length → j < 3 →
        ((([(1, [0, 3, 1])] : List (Nat × List Nat)).getD i (0, [])).2).getD j 0 =
          narrowStorage 8 ((fun n => ([0, 3, 1] : List Int).getD n 0)
            ((([⟨0, 4⟩] : List Feature).getD i ⟨0, 0⟩).indexFeatureData * 3 + j))) ∧
    (∀ f ∈ ([⟨0, 4⟩] : List Feature), ∀ c : Int, 0 ≤ c → c < (f.countBins : Int) →
        f.countBins ≤ 2 ^ 8 → ((narrowStorage 8 c : Nat) : Int) = c) :=
  column_contents_and_narrowing 8 3 [⟨0, 4⟩]
    (fun n => ([0, 3, 1] : List Int).getD n 0) ⟨[], 0, [], [], 0⟩
    ⟨[], 2, [(1, 3), (0, 1)], [], 2⟩ 0 [(1, [0, 3, 1])]
    (by unfold Heap.WF; decide) (by decide) (by decide) (by decide)
